import Mathlib

/-!
# Verification of the dns-guardian delegation-detection engine

Shallow embedding of `src/background.js` (dns-guardian). The JavaScript source
is a Chrome extension that decides, per hostname, whether the hostname is
delegated away from its registrable root domain, by comparing NS records
obtained from a DNS-over-HTTPS endpoint.

Modelling conventions:
* JS strings are Lean `String`s; `domain.split('.')` is `List.splitOn '.'` on
  the character list (empty pieces preserved; `"".split('.') == [""]`).
* The network (`fetch` + `response.json()`) is a function parameter
  `fetch : String → FetchResult`; any throw inside the `try` block of
  `getDnsServers` (transport error, non-2xx HTTP status, JSON parse error) is
  the constructor `FetchResult.failure`, matching the single `catch` handler.
* `Date.now()` is an explicit `now : Nat` parameter (milliseconds).
* JS `Map`s are association lists with first-match lookup; `Map.set` prepends,
  so the newest binding shadows older ones, which is observationally equal to
  JS `Map` for `get`/`set`.
* Stateful functions return their updated state; in addition
  `shouldBlockDomain` returns the list of names passed to `getDnsServers`
  during the call, so that network calls can be counted (each `getDnsServers`
  call performs exactly one `fetch`, unconditionally, at line 14 of the
  source).
-/

namespace DnsGuardian

/-- JS `domain.split('.')`: split the character list on `'.'`
(`background.js` line 73). -/
def splitDots (domain : String) : List (List Char) :=
  domain.data.splitOn '.'

/-- Embedding of `getRootDomain` (`background.js` lines 72–81): if the hostname has two or
fewer dot-separated labels it is its own root; otherwise the root is the last
two labels joined by `'.'` (JS `parts.slice(-2).join('.')`). -/
def getRootDomain (domain : String) : String :=
  let parts := splitDots domain
  if parts.length ≤ 2 then domain
  else String.mk (List.intercalate ['.'] (parts.drop (parts.length - 2)))

/-- A record in the `Answer` or `Authority` section of the DoH JSON body
(record `type` 2 = NS, 6 = SOA; `name` and `data` are the record's string
fields). -/
structure DnsRecord where
  type : Nat
  name : String
  data : String
deriving DecidableEq, Repr

/-- The DoH JSON body: `Status` (0 = no error) and optional `Answer` /
`Authority` record lists.  A JS field that is absent (`undefined`) is `none`;
a *present but empty* array is `some []`, which is truthy in JS, so presence
and emptiness are modelled separately. -/
structure DnsResponse where
  Status : Nat
  Answer : Option (List DnsRecord)
  Authority : Option (List DnsRecord)
deriving DecidableEq, Repr

/-- Outcome of `await fetch(url)` plus `await response.json()` inside the
`try` block of `getDnsServers`: `failure` covers every throw path (transport
error, non-2xx HTTP status — the code throws on `!response.ok` — and JSON
parse errors), all landing in the same `catch`; `success data` is a parsed
body. -/
inductive FetchResult where
  | failure
  | success (data : DnsResponse)
deriving DecidableEq, Repr

/-- The normalized `{servers, authority}` record returned by `getDnsServers`.
`authority = none` models JS `null`. -/
structure NSLookupResult where
  servers : List String
  authority : Option String
deriving DecidableEq, Repr

/-- JS truthiness of a nullable string (`null` and `""` are falsy). -/
def strTruthy : Option String → Bool
  | none => false
  | some s => s != ""

/-- JS `String.prototype.toLowerCase` on DNS names: lowercase every
character (ASCII case mapping, `Char.toLower`), written over the character
list.  This is extensionally `String.toLower` (which is `String.map
Char.toLower`), spelled out so that it reduces by computation. -/
def jsToLower (s : String) : String :=
  String.mk (s.data.map Char.toLower)

/-- Embedding of `getDnsServers` (`background.js` lines 8–70), as a function of the network
behaviour `fetch` at the queried `domain`.  Mirrors the source: fetch failure
or non-zero `Status` → empty result; the `Answer` section's NS records first
(lowercased `data` fields) — a non-empty hit short-circuits; else the
`Authority` section: the first SOA record's `name` (lowercased) as
`authority` and the section's NS records as `servers`; `if (authority)` at
line 56 is a JS truthiness test, so an empty-string SOA name does not produce
the `{∅, authority}` result. -/
def getDnsServers (fetch : String → FetchResult) (domain : String) :
    NSLookupResult :=
  match fetch domain with
  | .failure => { servers := [], authority := none }
  | .success data =>
    if data.Status ≠ 0 then { servers := [], authority := none }
    else
      let fromAnswer : Option NSLookupResult :=
        match data.Answer with
        | some answer =>
          let servers := (answer.filter (fun record => record.type == 2)).map
            (fun record => jsToLower record.data)
          if servers.length > 0 then
            some { servers := servers, authority := none }
          else none
        | none => none
      match fromAnswer with
      | some result => result
      | none =>
        match data.Authority with
        | some auth =>
          let soaRecord := auth.find? (fun record => record.type == 6)
          let authority := soaRecord.map (fun record => jsToLower record.name)
          let servers := (auth.filter (fun record => record.type == 2)).map
            (fun record => jsToLower record.data)
          if servers.length > 0 then
            { servers := servers, authority := authority }
          else if strTruthy authority then
            { servers := [], authority := authority }
          else { servers := [], authority := none }
        | none => { servers := [], authority := none }

/-- JS `Map.prototype.get` on an association-list model (first match wins). -/
def mapGet {β : Type} : List (String × β) → String → Option β
  | [], _ => none
  | (k, v) :: rest, key => if k = key then some v else mapGet rest key

/-- JS `Map.prototype.set`: the new binding shadows any older one. -/
def mapSet {β : Type} (m : List (String × β)) (key : String) (v : β) :
    List (String × β) :=
  (key, v) :: m

/-- An entry of `dnsCache` (`background.js` lines 142–145): the final verdict
`shouldBlock` with the `Date.now()` timestamp at which it was stored. -/
structure CacheEntry where
  shouldBlock : Bool
  timestamp : Nat
deriving DecidableEq, Repr

/-- The module-level `dnsCache` map (`background.js` line 2).  Note it maps an
evaluated hostname to a **verdict** (`CacheEntry`), not a queried name to a
raw `NSLookupResult`: the source has no cache in front of `getDnsServers`. -/
abbrev DnsCache := List (String × CacheEntry)

/-- The constant `cacheTTL = 5 * 60 * 1000` milliseconds (`background.js` line 3). -/
def cacheTTL : Nat := 5 * 60 * 1000

/-- JS `String.prototype.endsWith`: the argument is a suffix of the string
(modelled on the character lists). -/
def jsEndsWith (s pat : String) : Bool :=
  pat.data.isSuffixOf s.data

/-- The guard of `background.js` lines 115–117:
`domainResult.authority && domainResult.authority !== rootDomain &&
!domainResult.authority.endsWith('.' + rootDomain)`.  The first conjunct is a
JS truthiness test, so `null` and `""` both fail it. -/
def authorityForeign (authority : Option String) (rootDomain : String) : Bool :=
  match authority with
  | none => false
  | some a => a != "" && a != rootDomain && !(jsEndsWith a ("." ++ rootDomain))

/-- The body of `shouldBlockDomain` after the verdict-cache check
(`background.js` lines 93–146) — this is the spec's `evaluate`.  `resolve`
abstracts `getDnsServers` applied to the ambient network (the source calls
`getDnsServers` directly; instantiate `resolve := getDnsServers fetch`).
Returns the verdict, the updated `dnsCache` (written only by the final
branch, lines 141–145), and the list of names passed to `getDnsServers`
during the call (both lookups happen before any branching, lines 99–100). -/
def shouldBlockDomainUncached (resolve : String → NSLookupResult) (now : Nat)
    (cache : DnsCache) (domain : String) : Bool × DnsCache × List String :=
  let rootDomain := getRootDomain domain
  if domain = rootDomain then (false, cache, [])
  else
    let domainResult := resolve domain
    let rootResult := resolve rootDomain
    let lookups := [domain, rootDomain]
    if rootResult.servers.length = 0 then (false, cache, lookups)
    else if authorityForeign domainResult.authority rootDomain then
      (true, cache, lookups)
    else if domainResult.servers.length > 0 then
      let hasCommonNameserver := domainResult.servers.any
        (fun ns => rootResult.servers.contains ns)
      if !hasCommonNameserver then (true, cache, lookups)
      else (false, cache, lookups)
    else
      (true, mapSet cache domain { shouldBlock := true, timestamp := now },
        lookups)

/-- Embedding of `shouldBlockDomain` (`background.js` lines 83–147): the verdict-cache
check first (an entry younger than `cacheTTL` is returned as-is, with no
lookups), then the fresh evaluation.  `now` stands for `Date.now()`; the
truncated `Nat` subtraction `now - timestamp` agrees with the JS comparison
`Date.now() - timestamp < cacheTTL` whenever it matters (for a timestamp in
the future both give a cache hit). -/
def shouldBlockDomain (resolve : String → NSLookupResult) (now : Nat)
    (cache : DnsCache) (domain : String) : Bool × DnsCache × List String :=
  match mapGet cache domain with
  | some cachedResult =>
    if now - cachedResult.timestamp < cacheTTL then
      (cachedResult.shouldBlock, cache, [])
    else shouldBlockDomainUncached resolve now cache domain
  | none => shouldBlockDomainUncached resolve now cache domain

/-- A `dnsCache` is well-formed when every key is a strict subdomain of its
own root domain.  The empty initial cache is well-formed, and
`shouldBlockDomain` preserves well-formedness, so every reachable `dnsCache`
satisfies it. -/
def wfCache (cache : DnsCache) : Prop :=
  ∀ k e, (k, e) ∈ cache → k ≠ getRootDomain k

/-- Fetch behaviour exhibiting an empty-string SOA name: the lookup of
`"b.a.com"` answers from the Authority section with an SOA record whose
`name` is `""` and one NS record shared with the root `"a.com"`. -/
def fetchEmptySoa : String → FetchResult := fun name =>
  if name = "b.a.com" then
    .success ⟨0, none, some [⟨6, "", "soa.x.com. admin.x.com. 1 2 3 4 5"⟩,
      ⟨2, "b.a.com", "ns1.x.com"⟩]⟩
  else if name = "a.com" then
    .success ⟨0, some [⟨2, "a.com", "ns1.x.com"⟩], none⟩
  else .failure

/-- Fetch behaviour for the C1 counterexample: `"b.a.com"` and `"a.com"`
both answer with the same single NS record, so the evaluation ends in the
shared-nameserver branch, which does **not** write `dnsCache`. -/
def fetchShared : String → FetchResult := fun name =>
  if name = "b.a.com" then
    .success ⟨0, some [⟨2, "b.a.com", "ns1.reg.com"⟩], none⟩
  else if name = "a.com" then
    .success ⟨0, some [⟨2, "a.com", "ns1.reg.com"⟩], none⟩
  else .failure

/-- Fetch behaviour for the C1 amended witness: `"b.a.com"` resolves to
nothing at all while `"a.com"` has an NS record, driving the evaluation into
the caching branch. -/
def fetchNoSub : String → FetchResult := fun name =>
  if name = "b.a.com" then .success ⟨0, none, none⟩
  else if name = "a.com" then
    .success ⟨0, some [⟨2, "a.com", "ns1.reg.com"⟩], none⟩
  else .failure

/-- State shared by the concurrent `onBeforeRequest` callers: the
`blockingDecisions` map (`background.js` line 206) and a count of
`shouldBlockDomain` evaluations started so far. -/
structure GateState where
  decisions : List (String × Bool)
  evalCount : Nat
deriving DecidableEq, Repr

/-- The synchronous prefix of one `onBeforeRequest` caller for `domain`
(lines 242–252): read `blockingDecisions`; on a hit answer at once; on a
miss start an evaluation (`shouldBlockDomain` runs synchronously up to its
first `await fetch` and suspends).  There is no in-flight marker of any kind
in the source: the only write to `blockingDecisions` (line 258) happens
after `await shouldBlockDomain(domain)` resolves. -/
def gateSyncStep (s : GateState) (domain : String) : GateState × Option Bool :=
  match mapGet s.decisions domain with
  | some cachedDecision => (s, some cachedDecision)
  | none => ({ s with evalCount := s.evalCount + 1 }, none)

/-- The completion of one caller's started evaluation (lines 252–263): the
suspended `shouldBlockDomain` finishes with the verdict for `domain` and the
caller stores it into `blockingDecisions`.  The caller's own `dnsCache` hit
check already ran inside its synchronous prefix (line 87 precedes the first
`await` at line 99) and missed for a never-before-seen hostname, so its
continuation computes the fresh path; by
`shouldBlockDomainUncached_verdict_cache_independent` the verdict is the
same for every `dnsCache`, written here with the empty one. -/
def gateCompleteStep (resolve : String → NSLookupResult) (now : Nat)
    (s : GateState) (domain : String) : GateState × Bool :=
  let verdict := (shouldBlockDomainUncached resolve now [] domain).1
  ({ s with decisions := mapSet s.decisions domain verdict }, verdict)

/-- Phase 1 of `n` concurrent callers for `domain`: under the JS event loop
every caller's synchronous prefix runs to its first suspension before any
network response is delivered, so all `n` prefixes run back-to-back. -/
def runGateSyncPhase (s : GateState) (domain : String) :
    Nat → GateState × List (Option Bool)
  | 0 => (s, [])
  | n + 1 =>
    let step := gateSyncStep s domain
    let rest := runGateSyncPhase step.1 domain n
    (rest.1, step.2 :: rest.2)

/-- Phase 2: deliver the network responses; each caller that had started an
evaluation completes it and stores its verdict, the others already hold
their cached answer. -/
def runGateCompletions (resolve : String → NSLookupResult) (now : Nat) :
    GateState → String → List (Option Bool) → GateState × List Bool
  | s, _, [] => (s, [])
  | s, domain, some b :: rest =>
    let tail := runGateCompletions resolve now s domain rest
    (tail.1, b :: tail.2)
  | s, domain, none :: rest =>
    let step := gateCompleteStep resolve now s domain
    let tail := runGateCompletions resolve now step.1 domain rest
    (tail.1, step.2 :: tail.2)

/-- Runs `n` concurrent `onBeforeRequest` callers for the same `domain`, in JS
event-loop order: all synchronous prefixes first, then the completions.
Returns the final state and the verdicts observed, in caller order. -/
def runConcurrentGate (resolve : String → NSLookupResult) (now : Nat)
    (s : GateState) (domain : String) (n : Nat) : GateState × List Bool :=
  let phase1 := runGateSyncPhase s domain n
  runGateCompletions resolve now phase1.1 domain phase1.2

/-- The `chrome.webRequest.onBeforeRequest` listener (`background.js` lines
209–276), sequential semantics for one request: extract the hostname
(`new URL` inside `extractDomain` is a host primitive, abstracted as the
`extract` parameter; `none` models the `catch` returning `null`); then the
`dns.google` exemption (lines 221–225), the active-root-domains scope filter
(lines 227–234), the root-domain skip (lines 236–240), the
`blockingDecisions` check (lines 242–247); otherwise evaluate via
`shouldBlockDomain` and store the decision (lines 249–263).  Returns the
`cancel` flag of the resolved `{cancel: …}` object, the updated decisions
map, the updated `dnsCache`, and the names looked up. -/
def onBeforeRequest (extract : String → Option String)
    (resolve : String → NSLookupResult) (now : Nat)
    (activeRootDomains : List String) (decisions : List (String × Bool))
    (cache : DnsCache) (url : String) :
    Bool × List (String × Bool) × DnsCache × List String :=
  match extract url with
  | none => (false, decisions, cache, [])
  | some domain =>
    if domain = "dns.google" then (false, decisions, cache, [])
    else
      let requestRootDomain := getRootDomain domain
      if !(activeRootDomains.contains requestRootDomain) then
        (false, decisions, cache, [])
      else if domain = requestRootDomain then (false, decisions, cache, [])
      else
        match mapGet decisions domain with
        | some cachedDecision => (cachedDecision, decisions, cache, [])
        | none =>
          let result := shouldBlockDomain resolve now cache domain
          (result.1, mapSet decisions domain result.1, result.2.1, result.2.2)

/-- No piece produced by `List.splitOn x` contains the separator `x`. -/
theorem not_mem_of_mem_splitOn {x : Char} {xs : List Char} :
    ∀ l ∈ xs.splitOn x, x ∉ l := by
  induction xs with
  | nil =>
    intro l hl
    simp only [List.splitOn_nil, List.mem_singleton] at hl
    simp [hl]
  | cons a as ih =>
    intro l hl
    simp only [List.splitOn] at hl ih
    rw [List.splitOnP_cons] at hl
    by_cases hax : a = x
    · rw [if_pos (by simp [hax])] at hl
      rcases List.mem_cons.mp hl with h | h
      · simp [h]
      · exact ih l h
    · rw [if_neg (by simp [hax])] at hl
      rcases hsp : as.splitOnP (· == x) with _ | ⟨hd, tl⟩
      · exact absurd hsp (List.splitOnP_ne_nil _ _)
      · rw [hsp] at hl
        simp only [List.modifyHead] at hl
        rcases List.mem_cons.mp hl with h | h
        · subst h
          intro hmem
          rcases List.mem_cons.mp hmem with h' | h'
          · exact hax h'.symm
          · exact ih hd (hsp ▸ List.mem_cons_self _ _) h'
        · exact ih l (hsp ▸ List.mem_cons_of_mem _ h)

/-- For a hostname of at most two labels, `getRootDomain` is the identity. -/
theorem getRootDomain_eq_self {x : String} (h : (splitDots x).length ≤ 2) :
    getRootDomain x = x := by
  unfold getRootDomain
  simp [h]

/-- For a hostname of more than two labels, `getRootDomain` joins the last two
labels with a dot. -/
theorem getRootDomain_eq_join {x : String} (h : ¬(splitDots x).length ≤ 2) :
    getRootDomain x = String.mk (List.intercalate ['.']
      ((splitDots x).drop ((splitDots x).length - 2))) := by
  unfold getRootDomain
  simp [h]

/-- C9. `getRootDomain` is idempotent: applying it twice equals applying it
once, for every hostname string. -/
theorem getRootDomain_idempotent (x : String) :
    getRootDomain (getRootDomain x) = getRootDomain x := by
  by_cases h : (splitDots x).length ≤ 2
  · simp only [getRootDomain_eq_self h]
  · have hlen2 : ((splitDots x).drop ((splitDots x).length - 2)).length = 2 := by
      rw [List.length_drop]; omega
    obtain ⟨a, b, hab⟩ :
        ∃ a b, (splitDots x).drop ((splitDots x).length - 2) = [a, b] := by
      rcases l2 : (splitDots x).drop ((splitDots x).length - 2)
        with _ | ⟨a, _ | ⟨b, _ | ⟨c, t⟩⟩⟩ <;>
        simp only [l2, List.length_nil, List.length_cons] at hlen2 <;>
        first
          | omega
          | exact ⟨a, b, rfl⟩
    have hsub : ∀ l ∈ [a, b], l ∈ splitDots x := by
      intro l hl
      exact List.mem_of_mem_drop (hab ▸ hl)
    have hroot : getRootDomain x = String.mk (List.intercalate ['.'] [a, b]) := by
      rw [getRootDomain_eq_join h, hab]
    have hsplit : splitDots (getRootDomain x) = [a, b] := by
      rw [hroot]
      show (List.intercalate ['.'] [a, b]).splitOn '.' = [a, b]
      exact List.splitOn_intercalate [a, b] '.'
        (fun l hl => not_mem_of_mem_splitOn l (hsub l hl)) (by simp)
    rw [getRootDomain_eq_self (by rw [hsplit]; simp), hroot]

theorem mapGet_nil {β : Type} (key : String) :
    mapGet ([] : List (String × β)) key = none := rfl

theorem mapGet_cons {β : Type} (k key : String) (v : β)
    (rest : List (String × β)) :
    mapGet ((k, v) :: rest) key = if k = key then some v else mapGet rest key :=
  rfl

/-- C8. `getDnsServers` never propagates a network, HTTP, JSON, or DNS-level
error: on a fetch failure (transport error, non-2xx status, JSON error) or a
non-zero DNS `Status` field it returns the canonical empty result
`{servers := [], authority := none}`. -/
theorem getDnsServers_error_empty (fetch : String → FetchResult)
    (domain : String)
    (h : fetch domain = .failure ∨
      ∃ data : DnsResponse, fetch domain = .success data ∧ data.Status ≠ 0) :
    getDnsServers fetch domain = { servers := [], authority := none } := by
  rcases h with h | ⟨data, h, hs⟩
  · rw [getDnsServers, h]
  · rw [getDnsServers, h]
    simp [hs]

/-- Witness for C8 at a concrete always-failing fetch and at a concrete
DNS-level error status. -/
theorem getDnsServers_error_empty_witness :
    getDnsServers (fun _ => .failure) "tracking.example.com" =
      { servers := [], authority := none } ∧
    getDnsServers
      (fun _ => .success { Status := 2, Answer := none, Authority := none })
      "tracking.example.com" = { servers := [], authority := none } :=
  ⟨getDnsServers_error_empty (fun _ => .failure) "tracking.example.com"
      (Or.inl rfl),
    getDnsServers_error_empty
      (fun _ => .success { Status := 2, Answer := none, Authority := none })
      "tracking.example.com"
      (Or.inr ⟨{ Status := 2, Answer := none, Authority := none }, rfl,
        by decide⟩)⟩

/-- A successful `mapGet` returns a pair that is in the list, keyed by the
queried key. -/
theorem mapGet_mem {β : Type} {m : List (String × β)} {key : String} {v : β}
    (h : mapGet m key = some v) : (key, v) ∈ m := by
  induction m with
  | nil => cases h
  | cons kv rest ih =>
    obtain ⟨k, v'⟩ := kv
    rw [mapGet_cons] at h
    by_cases hk : k = key
    · rw [if_pos hk] at h
      cases h
      exact hk ▸ List.mem_cons_self _ _
    · rw [if_neg hk] at h
      exact List.mem_cons_of_mem _ (ih h)

/-- The cache returned by the uncached evaluation is either unchanged, or is
the input cache extended at `domain` — and then `domain` is a strict
subdomain of its root (the write at lines 141–145 is only reachable past the
`domain === rootDomain` early return). -/
theorem shouldBlockDomainUncached_cache_characterization
    (resolve : String → NSLookupResult) (now : Nat) (cache : DnsCache)
    (domain : String) :
    (shouldBlockDomainUncached resolve now cache domain).2.1 = cache ∨
    (domain ≠ getRootDomain domain ∧
      (shouldBlockDomainUncached resolve now cache domain).2.1 =
        mapSet cache domain { shouldBlock := true, timestamp := now }) := by
  simp only [shouldBlockDomainUncached]
  split
  · exact Or.inl rfl
  next h1 =>
    split
    · exact Or.inl rfl
    · split
      · exact Or.inl rfl
      · split
        · split
          · exact Or.inl rfl
          · exact Or.inl rfl
        · exact Or.inr ⟨h1, rfl⟩

theorem wfCache_nil : wfCache [] := by
  intro k e h
  cases h

/-- Preservation: `shouldBlockDomain` keeps the cache well-formed. -/
theorem wfCache_preserved (resolve : String → NSLookupResult) (now : Nat)
    (cache : DnsCache) (domain : String) (h : wfCache cache) :
    wfCache (shouldBlockDomain resolve now cache domain).2.1 := by
  have huncached :
      wfCache (shouldBlockDomainUncached resolve now cache domain).2.1 := by
    rcases shouldBlockDomainUncached_cache_characterization resolve now cache
        domain with hc | ⟨hne, hc⟩
    · rw [hc]; exact h
    · rw [hc]
      intro k e hmem
      rcases List.mem_cons.mp hmem with heq | hmem'
      · cases heq
        exact hne
      · exact h k e hmem'
  rw [shouldBlockDomain]
  rcases hget : mapGet cache domain with _ | entry
  · exact huncached
  · by_cases htime : now - entry.timestamp < cacheTTL
    · simpa [htime] using h
    · simpa [htime] using huncached

/-- C7. For a hostname that is its own root domain, `shouldBlockDomain`
returns `false`, leaves the cache unchanged, and issues no DNS lookup — the
well-formedness hypothesis records that no reachable `dnsCache` can hold an
entry for a root domain, so the early return at lines 93–97 is always the
path taken. -/
theorem shouldBlockDomain_root_false_no_lookup
    (resolve : String → NSLookupResult) (now : Nat) (cache : DnsCache)
    (domain : String) (hwf : wfCache cache)
    (hroot : getRootDomain domain = domain) :
    shouldBlockDomain resolve now cache domain = (false, cache, []) := by
  have hmiss : mapGet cache domain = none := by
    rcases hget : mapGet cache domain with _ | entry
    · rfl
    · exact absurd hroot.symm (hwf domain entry (mapGet_mem hget))
  rw [shouldBlockDomain, hmiss]
  simp only [shouldBlockDomainUncached]
  rw [if_pos hroot.symm]

/-- Witness for C7: the two-label hostname `"a.com"` is its own root; on the
empty (well-formed) cache the call returns `false` with no lookups. -/
theorem shouldBlockDomain_root_false_no_lookup_witness :
    shouldBlockDomain (fun _ => { servers := ["ns1.reg.com"], authority := none })
      0 [] "a.com" = (false, [], []) :=
  shouldBlockDomain_root_false_no_lookup
    (fun _ => { servers := ["ns1.reg.com"], authority := none }) 0 [] "a.com"
    wfCache_nil (by decide)

/-- C6. If the root domain's lookup yields no servers, the evaluation returns
`false` whatever the hostname's own lookup result is. -/
theorem evaluate_empty_root_false (resolve : String → NSLookupResult)
    (now : Nat) (cache : DnsCache) (domain : String)
    (hroot : (resolve (getRootDomain domain)).servers = []) :
    (shouldBlockDomainUncached resolve now cache domain).1 = false := by
  simp only [shouldBlockDomainUncached]
  split
  · rfl
  · rw [if_pos (by rw [hroot]; rfl)]

/-- Witness for C6: `"sub.a.com"` with a resolver returning no servers for
`"a.com"` but servers for the subdomain itself. -/
theorem evaluate_empty_root_false_witness :
    (shouldBlockDomainUncached
      (fun name => if name = "sub.a.com"
        then { servers := ["ns1.other.net"], authority := some "other.net" }
        else { servers := [], authority := none })
      0 [] "sub.a.com").1 = false :=
  evaluate_empty_root_false
    (fun name => if name = "sub.a.com"
      then { servers := ["ns1.other.net"], authority := some "other.net" }
      else { servers := [], authority := none })
    0 [] "sub.a.com" (by decide)

/-- C5. A hostname with no servers and absent authority, under a root with
servers, evaluates to `true` (the final, most aggressive branch). -/
theorem evaluate_no_records_true (resolve : String → NSLookupResult)
    (now : Nat) (cache : DnsCache) (domain : String)
    (hne : domain ≠ getRootDomain domain)
    (hdom : (resolve domain).servers = [])
    (hauth : (resolve domain).authority = none)
    (hroot : (resolve (getRootDomain domain)).servers ≠ []) :
    (shouldBlockDomainUncached resolve now cache domain).1 = true := by
  simp only [shouldBlockDomainUncached]
  rw [if_neg hne,
    if_neg (by simpa using fun hlen => hroot (List.length_eq_zero.mp hlen)),
    hauth]
  simp only [authorityForeign]
  rw [if_neg (by simp), if_neg (by rw [hdom]; simp)]

/-- Witness for C5: the subdomain resolves to nothing, the root has one
nameserver. -/
theorem evaluate_no_records_true_witness :
    (shouldBlockDomainUncached
      (fun name => if name = "a.com"
        then { servers := ["ns1.reg.com"], authority := none }
        else { servers := [], authority := none })
      0 [] "x.a.com").1 = true :=
  evaluate_no_records_true
    (fun name => if name = "a.com"
      then { servers := ["ns1.reg.com"], authority := none }
      else { servers := [], authority := none })
    0 [] "x.a.com" (by decide) (by decide) (by decide) (by decide)

/-- When neither the early root return nor the root-empty nor the
foreign-authority branch fires and the hostname has servers, the verdict is
the negation of the shared-nameserver test of lines 123–136. -/
theorem shouldBlockDomainUncached_servers_branch
    (resolve : String → NSLookupResult) (now : Nat) (cache : DnsCache)
    (domain : String)
    (hne : domain ≠ getRootDomain domain)
    (hdom : (resolve domain).servers ≠ [])
    (hroot : (resolve (getRootDomain domain)).servers ≠ [])
    (hauth : authorityForeign (resolve domain).authority (getRootDomain domain)
      = false) :
    (shouldBlockDomainUncached resolve now cache domain).1 =
      !((resolve domain).servers.any
        (fun ns => (resolve (getRootDomain domain)).servers.contains ns)) := by
  simp only [shouldBlockDomainUncached]
  rw [if_neg hne,
    if_neg (by simpa using fun hlen => hroot (List.length_eq_zero.mp hlen)),
    hauth, if_neg (by simp),
    if_pos (by simpa using List.length_pos.mpr hdom)]
  cases hany : (resolve domain).servers.any
      (fun ns => (resolve (getRootDomain domain)).servers.contains ns) <;>
    simp [hany]

/-- C3. With a non-empty servers set for the hostname, a non-empty servers
set for the root, and an authority that does not trigger the foreign-zone
branch, the evaluation returns `false` when at least one nameserver appears
in both servers sets, and `true` when the two sets are disjoint. -/
theorem evaluate_servers_comparison (resolve : String → NSLookupResult)
    (now : Nat) (cache : DnsCache) (domain : String)
    (hdom : (resolve domain).servers ≠ [])
    (hroot : (resolve (getRootDomain domain)).servers ≠ [])
    (hauth : authorityForeign (resolve domain).authority (getRootDomain domain)
      = false) :
    ((∃ ns, ns ∈ (resolve domain).servers ∧
        ns ∈ (resolve (getRootDomain domain)).servers) →
      (shouldBlockDomainUncached resolve now cache domain).1 = false) ∧
    ((∀ ns ∈ (resolve domain).servers,
        ns ∉ (resolve (getRootDomain domain)).servers) →
      (shouldBlockDomainUncached resolve now cache domain).1 = true) := by
  by_cases hne : domain = getRootDomain domain
  · constructor
    · intro _
      simp only [shouldBlockDomainUncached]
      rw [if_pos hne]
    · intro hdisj
      exfalso
      obtain ⟨ns, hns⟩ := List.exists_mem_of_ne_nil _ hdom
      exact hdisj ns hns (by rw [← hne]; exact hns)
  · rw [shouldBlockDomainUncached_servers_branch resolve now cache domain hne
      hdom hroot hauth]
    constructor
    · rintro ⟨ns, h1, h2⟩
      simp only [Bool.not_eq_false', List.any_eq_true]
      exact ⟨ns, h1, by simpa using h2⟩
    · intro hdisj
      simp only [Bool.not_eq_true', List.any_eq_false]
      intro ns hns
      simpa using hdisj ns hns

/-- Witness for C3, both directions: `"shared.a.com"` shares `ns1.reg.com`
with the root and is allowed; `"alien.a.com"` has disjoint nameservers and is
blocked. -/
theorem evaluate_servers_comparison_witness :
    (shouldBlockDomainUncached
      (fun name => if name = "shared.a.com"
        then { servers := ["ns1.reg.com", "ns2.reg.com"], authority := none }
        else { servers := ["ns1.reg.com"], authority := none })
      0 [] "shared.a.com").1 = false ∧
    (shouldBlockDomainUncached
      (fun name => if name = "alien.a.com"
        then { servers := ["ns1.tracker.net"], authority := none }
        else { servers := ["ns1.reg.com"], authority := none })
      0 [] "alien.a.com").1 = true :=
  ⟨(evaluate_servers_comparison
      (fun name => if name = "shared.a.com"
        then { servers := ["ns1.reg.com", "ns2.reg.com"], authority := none }
        else { servers := ["ns1.reg.com"], authority := none })
      0 [] "shared.a.com" (by decide) (by decide) (by decide)).1
    ⟨"ns1.reg.com", by decide, by decide⟩,
    (evaluate_servers_comparison
      (fun name => if name = "alien.a.com"
        then { servers := ["ns1.tracker.net"], authority := none }
        else { servers := ["ns1.reg.com"], authority := none })
      0 [] "alien.a.com" (by decide) (by decide) (by decide)).2
    (by decide)⟩

/-- C4 (amended). If the root lookup has servers and the hostname's lookup
carries a present **non-empty** authority that neither equals the root domain
nor ends with `"." ++ root`, the evaluation returns `true`, whatever the
hostname's own servers set is. -/
theorem evaluate_foreign_authority (resolve : String → NSLookupResult)
    (now : Nat) (cache : DnsCache) (domain : String) (a : String)
    (hne : domain ≠ getRootDomain domain)
    (hroot : (resolve (getRootDomain domain)).servers ≠ [])
    (hauth : (resolve domain).authority = some a)
    (hnone : a ≠ "")
    (hner : a ≠ getRootDomain domain)
    (hnsub : jsEndsWith a ("." ++ getRootDomain domain) = false) :
    (shouldBlockDomainUncached resolve now cache domain).1 = true := by
  simp only [shouldBlockDomainUncached]
  rw [if_neg hne,
    if_neg (by simpa using fun hlen => hroot (List.length_eq_zero.mp hlen)),
    if_pos (by
      rw [hauth]
      simp only [authorityForeign, hnsub]
      simp [hnone, hner])]

/-- Witness for C4 (amended): `"evil.a.com"` has authority
`"thirdparty.net"`, foreign to root `"a.com"`, and is blocked even though it
shares its only nameserver with the root. -/
theorem evaluate_foreign_authority_witness :
    (shouldBlockDomainUncached
      (fun name => if name = "evil.a.com"
        then { servers := ["ns1.reg.com"], authority := some "thirdparty.net" }
        else { servers := ["ns1.reg.com"], authority := none })
      0 [] "evil.a.com").1 = true :=
  evaluate_foreign_authority
    (fun name => if name = "evil.a.com"
      then { servers := ["ns1.reg.com"], authority := some "thirdparty.net" }
      else { servers := ["ns1.reg.com"], authority := none })
    0 [] "evil.a.com" "thirdparty.net" (by decide) (by decide) (by decide)
    (by decide) (by decide) (by decide)

/-- Counterexample to C4 as stated: via `fetchEmptySoa`, the hostname
`"b.a.com"` gets an NSLookupResult whose authority is *present* (`some ""`),
differs from the root domain `"a.com"`, and does not end with `".a.com"`;
the root's servers set is non-empty — yet the evaluation returns `false`,
because the JS truthiness test `domainResult.authority && …` treats the empty
string as absent and falls through to the shared-nameserver comparison. -/
theorem evaluate_foreign_authority_counterexample :
    (getDnsServers fetchEmptySoa "b.a.com").authority = some "" ∧
    getRootDomain "b.a.com" = "a.com" ∧
    ("" : String) ≠ "a.com" ∧
    jsEndsWith "" (".a.com") = false ∧
    (getDnsServers fetchEmptySoa "a.com").servers = ["ns1.x.com"] ∧
    (shouldBlockDomainUncached (getDnsServers fetchEmptySoa) 0 []
      "b.a.com").1 = false := by
  refine ⟨?_, by decide, by decide, by decide, ?_, ?_⟩ <;> decide

/-- When the hostname is a strict subdomain, the fresh evaluation always
issues exactly the two lookups `[domain, root]` (lines 99–100 run before any
branching). -/
theorem shouldBlockDomainUncached_lookups (resolve : String → NSLookupResult)
    (now : Nat) (cache : DnsCache) (domain : String)
    (hne : domain ≠ getRootDomain domain) :
    (shouldBlockDomainUncached resolve now cache domain).2.2 =
      [domain, getRootDomain domain] := by
  simp only [shouldBlockDomainUncached]
  rw [if_neg hne]
  split
  · rfl
  · split
    · rfl
    · split
      · split
        · rfl
        · rfl
      · rfl

/-- Full description of the final branch (lines 139–146): no servers and no
truthy foreign authority for the subdomain, servers for the root — verdict
`true`, stored into `dnsCache` under the evaluated hostname. -/
theorem shouldBlockDomainUncached_no_records_eq
    (resolve : String → NSLookupResult) (now : Nat) (cache : DnsCache)
    (domain : String)
    (hne : domain ≠ getRootDomain domain)
    (hdom : (resolve domain).servers = [])
    (hauth : (resolve domain).authority = none)
    (hroot : (resolve (getRootDomain domain)).servers ≠ []) :
    shouldBlockDomainUncached resolve now cache domain =
      (true, mapSet cache domain { shouldBlock := true, timestamp := now },
        [domain, getRootDomain domain]) := by
  simp only [shouldBlockDomainUncached]
  rw [if_neg hne,
    if_neg (by simpa using fun hlen => hroot (List.length_eq_zero.mp hlen)),
    hauth]
  simp only [authorityForeign]
  rw [if_neg (by simp), if_neg (by rw [hdom]; simp)]

/-- Counterexample to C1 as stated: with `fetchShared`, two
`shouldBlockDomain` calls for `"b.a.com"` only 1000 ms apart — well inside
the 5-minute TTL — **each** pass the name `"b.a.com"` (and `"a.com"`) to
`getDnsServers`, i.e. two lookups of the same name within the TTL window
cause two network calls, not one: the source keeps no cache of raw
`NSLookupResult`s, and the shared-nameserver verdict (`false`) is not stored
in `dnsCache` either (only the no-subdomain-records branch stores), so the
second call repeats both fetches. -/
theorem answer_cache_counterexample :
    shouldBlockDomain (getDnsServers fetchShared) 0 [] "b.a.com" =
      (false, [], ["b.a.com", "a.com"]) ∧
    shouldBlockDomain (getDnsServers fetchShared) 1000 [] "b.a.com" =
      (false, [], ["b.a.com", "a.com"]) ∧
    (1000 : Nat) < cacheTTL := by
  refine ⟨?_, ?_, by decide⟩ <;> decide

/-- C1 (amended). The only 5-minute-TTL cache in the program is `dnsCache`,
which stores the final **verdict** of the no-subdomain-records branch keyed
by the evaluated hostname.  After a first `shouldBlockDomain` call for
`domain` takes that branch at time `t` (issuing its two lookups), a second
call within the TTL window issues no network calls at all and returns the
cached verdict — even against a completely different resolver — and a call
at or after TTL expiry issues new network calls. -/
theorem verdict_cache_ttl (resolve resolveLater : String → NSLookupResult)
    (t t₂ t₃ : Nat) (cache : DnsCache) (domain : String)
    (hmiss : mapGet cache domain = none)
    (hne : domain ≠ getRootDomain domain)
    (hdom : (resolve domain).servers = [])
    (hauth : (resolve domain).authority = none)
    (hroot : (resolve (getRootDomain domain)).servers ≠ [])
    (hin : t₂ - t < cacheTTL) (hout : cacheTTL ≤ t₃ - t) :
    ∃ cache₁,
      shouldBlockDomain resolve t cache domain =
        (true, cache₁, [domain, getRootDomain domain]) ∧
      shouldBlockDomain resolveLater t₂ cache₁ domain = (true, cache₁, []) ∧
      (shouldBlockDomain resolve t₃ cache₁ domain).2.2 =
        [domain, getRootDomain domain] := by
  refine ⟨mapSet cache domain { shouldBlock := true, timestamp := t },
    ?_, ?_, ?_⟩
  · rw [shouldBlockDomain, hmiss]
    exact shouldBlockDomainUncached_no_records_eq resolve t cache domain hne
      hdom hauth hroot
  · have hget : mapGet
        (mapSet cache domain { shouldBlock := true, timestamp := t }) domain =
        some { shouldBlock := true, timestamp := t } := by
      simp [mapSet, mapGet_cons]
    rw [shouldBlockDomain, hget]
    dsimp only
    rw [if_pos hin]
  · have hget : mapGet
        (mapSet cache domain { shouldBlock := true, timestamp := t }) domain =
        some { shouldBlock := true, timestamp := t } := by
      simp [mapSet, mapGet_cons]
    rw [shouldBlockDomain, hget]
    dsimp only
    rw [if_neg (by omega)]
    exact shouldBlockDomainUncached_lookups resolve t₃ _ domain hne

/-- Witness for C1 (amended): first call at `t = 0`, second at `1000` ms
(inside the TTL, against a resolver that always fails — showing the network
is untouched), third at exactly `cacheTTL` (expired, lookups re-issued). -/
theorem verdict_cache_ttl_witness :
    ∃ cache₁,
      shouldBlockDomain (getDnsServers fetchNoSub) 0 [] "b.a.com" =
        (true, cache₁, ["b.a.com", getRootDomain "b.a.com"]) ∧
      shouldBlockDomain (getDnsServers (fun _ => .failure)) 1000 cache₁
        "b.a.com" = (true, cache₁, []) ∧
      (shouldBlockDomain (getDnsServers fetchNoSub) cacheTTL cache₁
        "b.a.com").2.2 = ["b.a.com", getRootDomain "b.a.com"] :=
  verdict_cache_ttl (getDnsServers fetchNoSub)
    (getDnsServers (fun _ => .failure)) 0 1000 cacheTTL [] "b.a.com" rfl
    (by decide) (by decide) (by decide) (by decide) (by decide) (by decide)

/-- The verdict of the fresh evaluation does not depend on the `dnsCache`
contents: past the hit check the cache is only written, never read. -/
theorem shouldBlockDomainUncached_verdict_cache_independent
    (resolve : String → NSLookupResult) (now : Nat) (cache cache' : DnsCache)
    (domain : String) :
    (shouldBlockDomainUncached resolve now cache domain).1 =
      (shouldBlockDomainUncached resolve now cache' domain).1 := by
  simp only [shouldBlockDomainUncached]
  split
  · rfl
  · split
    · rfl
    · split
      · rfl
      · split
        · split
          · rfl
          · rfl
        · rfl

/-- With no decision on file for `domain`, every one of the `n` synchronous
prefixes misses the `blockingDecisions` map and starts its own evaluation:
the map is only written at completion time, which has not happened yet. -/
theorem runGateSyncPhase_miss (decisions : List (String × Bool)) (c0 : Nat)
    (domain : String) (hmiss : mapGet decisions domain = none) :
    ∀ n : Nat, runGateSyncPhase ⟨decisions, c0⟩ domain n =
      (⟨decisions, c0 + n⟩, List.replicate n none)
  | 0 => by simp [runGateSyncPhase]
  | n + 1 => by
    simp only [runGateSyncPhase, gateSyncStep, hmiss]
    rw [runGateSyncPhase_miss decisions (c0 + 1) domain hmiss n,
      List.replicate_succ]
    have h1 : c0 + 1 + n = c0 + (n + 1) := by omega
    rw [h1]

/-- Completing a list of `n` started evaluations yields `n` copies of the
deterministic fresh verdict and leaves the evaluation count unchanged. -/
theorem runGateCompletions_replicate (resolve : String → NSLookupResult)
    (now : Nat) (domain : String) :
    ∀ (n : Nat) (s : GateState),
      runGateCompletions resolve now s domain (List.replicate n none) =
        (⟨(List.replicate n
            (domain, (shouldBlockDomainUncached resolve now [] domain).1)).reverse
              ++ s.decisions,
          s.evalCount⟩,
          List.replicate n ((shouldBlockDomainUncached resolve now [] domain).1))
  | 0, s => by simp [runGateCompletions]
  | n + 1, s => by
    simp only [List.replicate, runGateCompletions, gateCompleteStep]
    rw [runGateCompletions_replicate resolve now domain n]
    simp [mapSet, List.replicate_succ, List.reverse_cons, List.append_assoc]

/-- Counterexample to C2 as stated: two concurrent callers for the
never-before-seen hostname `"b.a.com"` trigger **two** underlying
evaluations, not one — there is no in-flight deduplication in the source —
although both observe the identical verdict. -/
theorem concurrent_dedup_counterexample :
    (runConcurrentGate (getDnsServers fetchShared) 0 ⟨[], 0⟩ "b.a.com"
      2).1.evalCount = 2 ∧
    (runConcurrentGate (getDnsServers fetchShared) 0 ⟨[], 0⟩ "b.a.com" 2).2 =
      [false, false] := by
  constructor <;> decide

/-- C2 (amended). For a hostname with no decision on file, `n` concurrent
`onBeforeRequest` callers each trigger their **own** evaluation (`n`
evaluations in total — the source has no in-flight deduplication), and all
`n` callers observe the identical verdict, the deterministic fresh
evaluation's result. -/
theorem concurrent_no_dedup (resolve : String → NSLookupResult) (now : Nat)
    (decisions : List (String × Bool)) (c0 : Nat) (domain : String) (n : Nat)
    (hmiss : mapGet decisions domain = none) :
    (runConcurrentGate resolve now ⟨decisions, c0⟩ domain n).1.evalCount =
      c0 + n ∧
    (runConcurrentGate resolve now ⟨decisions, c0⟩ domain n).2 =
      List.replicate n ((shouldBlockDomainUncached resolve now [] domain).1) := by
  unfold runConcurrentGate
  rw [runGateSyncPhase_miss decisions c0 domain hmiss n]
  rw [runGateCompletions_replicate resolve now domain n ⟨decisions, c0 + n⟩]
  constructor <;> rfl

/-- Witness for C2 (amended): three concurrent callers for `"b.a.com"` on an
empty decisions map produce three evaluations and three identical `false`
verdicts. -/
theorem concurrent_no_dedup_witness :
    (runConcurrentGate (getDnsServers fetchShared) 0 ⟨[], 0⟩ "b.a.com"
      3).1.evalCount = 0 + 3 ∧
    (runConcurrentGate (getDnsServers fetchShared) 0 ⟨[], 0⟩ "b.a.com" 3).2 =
      List.replicate 3 ((shouldBlockDomainUncached (getDnsServers fetchShared)
        0 [] "b.a.com").1) :=
  concurrent_no_dedup (getDnsServers fetchShared) 0 [] 0 "b.a.com" 3 rfl

/-- C10. A request whose extracted hostname is exactly `"dns.google"` is
allowed (`cancel = false`) unconditionally: no evaluation, no DNS lookup, no
state change — whatever the active-root-domain set and the cached decisions
hold. -/
theorem gate_dns_google_exempt (extract : String → Option String)
    (resolve : String → NSLookupResult) (now : Nat)
    (activeRootDomains : List String) (decisions : List (String × Bool))
    (cache : DnsCache) (url : String)
    (h : extract url = some "dns.google") :
    onBeforeRequest extract resolve now activeRootDomains decisions cache
      url = (false, decisions, cache, []) := by
  unfold onBeforeRequest
  rw [h]
  dsimp only
  rw [if_pos rfl]

/-- Witness for C10: even with `"dns.google"` among the active root domains
and a stored **block** decision for it, the request is allowed with no state
change and no lookup. -/
theorem gate_dns_google_exempt_witness :
    onBeforeRequest (fun _ => some "dns.google")
      (getDnsServers (fun _ => .failure)) 0 ["dns.google"]
      [("dns.google", true)] [] "https://dns.google/resolve?name=x&type=NS" =
      (false, [("dns.google", true)], [], []) :=
  gate_dns_google_exempt (fun _ => some "dns.google")
    (getDnsServers (fun _ => .failure)) 0 ["dns.google"]
    [("dns.google", true)] [] "https://dns.google/resolve?name=x&type=NS" rfl

end DnsGuardian

